import Mathlib

/-!
Shallow embedding of the PyCliff command-line toolkit
(src/pycliff/bindings.py and src/pycliff/console.py).

Python values that can be stored as "handlers" are modelled by `HVal`;
a callable carries an identifier `hid` (used only as a ghost observation,
to record which handler was invoked) and a `body` describing the effect of
one invocation: whether the handler calls `Console.stop()` during its run,
and whether it returns a value or raises an exception.

Exceptions are modelled by `PyError`; Python's dynamic `raise` /
`try ... except` becomes explicit `Except` plumbing.  Mutation of the
`Bindings` / `Console` objects becomes explicit state passing: each
operation returns the updated state together with its observable outcome.
-/

namespace PyCliff

/-- A Python exception, as far as this code base distinguishes them:
`CommandBindingException` (with its message), `KeyboardInterrupt`,
`IOError`/`OSError` (not distinguished further, as the code catches them
together), and any other exception identified by a tag string. -/
inductive PyError where
  | commandBinding (msg : String)
  | keyboardInterrupt
  | ioError
  | other (tag : String)
deriving DecidableEq, Repr

/-- A Python value returned by a handler (the dispatch layer ignores it,
so a small universe suffices): `None`, a number, or a string. -/
inductive PyVal where
  | noneV
  | natV (n : Nat)
  | strV (s : String)
deriving DecidableEq, Repr

/-- The observable effect of one handler invocation: whether the handler
called `Console.stop()` at some point during its run, and its outcome
(a returned value or a raised exception). -/
structure HEffect where
  stops : Bool
  result : Except PyError PyVal

/-- A Python callable, with a ghost identifier `hid` used to record which
handler was invoked, and a `body` mapping the positional string arguments
it receives to the effect of that invocation. -/
structure PyFunc where
  hid : Nat
  body : List String → HEffect

/-- A Python value stored in the `_commands` dict or in `_default`:
a callable, `None`, or some other non-callable object (tagged). -/
inductive HVal where
  | func (f : PyFunc)
  | pyNone
  | obj (tag : String)

/-- Python's `callable(...)` test restricted to `HVal`. -/
def HVal.callable : HVal → Bool
  | .func _ => true
  | _ => false

/-- Python dict lookup `m.get(k, d)` without the fallback: `m[k]` if
present.  The dict is modelled as an association list with unique keys
(insertion updates in place, preserving position, like a Python dict). -/
def dictGet {β : Type} (m : List (String × β)) (k : String) : Option β :=
  match m with
  | [] => none
  | (k', v) :: rest => if k' = k then some v else dictGet rest k

/-- Python dict assignment `m[k] = v`: updates the entry in place if the
key is present (keeping its position, like a Python dict), else appends. -/
def dictInsert {β : Type} (m : List (String × β)) (k : String) (v : β) :
    List (String × β) :=
  match m with
  | [] => [(k, v)]
  | (k', v') :: rest =>
    if k' = k then (k, v) :: rest else (k', v') :: dictInsert rest k v

/-- State of a `Bindings` object (src/pycliff/bindings.py):
`commands` is `self._commands`, `defaultHandler` is `self._default`
(initially `None`), `args` is `self._args`. -/
structure Bindings where
  commands : List (String × HVal)
  defaultHandler : HVal
  args : List String

/-- `Bindings.__init__`: empty command dict, `_default = None`, no args. -/
def Bindings.init : Bindings :=
  { commands := [], defaultHandler := .pyNone, args := [] }

/-- `Bindings.__contains__`: `key in self._commands`. -/
def Bindings.contains (st : Bindings) (key : String) : Bool :=
  (dictGet st.commands key).isSome

/-- `Bindings.argc` property: `len(self._args)`. -/
def Bindings.argc (st : Bindings) : Nat :=
  st.args.length

/-- Python list subscription `xs[i]` with an `int` index: non-negative
indices count from the front, negative indices from the back, and an
out-of-range index raises `IndexError`. -/
def listGetItem (xs : List String) (i : Int) : Except PyError String :=
  if h : 0 ≤ i ∧ i < (xs.length : Int) then
    .ok (xs.get ⟨i.toNat, by omega⟩)
  else if h2 : -(xs.length : Int) ≤ i ∧ i < 0 then
    .ok (xs.get ⟨((xs.length : Int) + i).toNat, by omega⟩)
  else
    .error (.other "IndexError")

/-- `Bindings.getArg(index, default='')`: returns `default` when
`index >= self.argc`, otherwise evaluates `self._args[index]` (which, for
a negative `index`, follows Python's negative-indexing rule and can raise
`IndexError`). -/
def Bindings.getArg (st : Bindings) (index : Int) (dfault : String) :
    Except PyError String :=
  if index ≥ (st.argc : Int) then .ok dfault
  else listGetItem st.args index

/-- `Bindings.add(command, handler)`: `self._commands[command] = handler`;
returns the handler (we return the updated state, the returned handler
being the argument unchanged). -/
def Bindings.add (st : Bindings) (command : String) (handler : HVal) :
    Bindings :=
  { st with commands := dictInsert st.commands command handler }

/-- `Bindings.setDefault(handler)`: `self._default = handler`. -/
def Bindings.setDefault (st : Bindings) (handler : HVal) : Bindings :=
  { st with defaultHandler := handler }

/-- `Bindings.asList()`: `sorted(self._commands.keys())`. -/
def Bindings.asList (st : Bindings) : List String :=
  List.insertionSort (· ≤ ·) (st.commands.map Prod.fst)

/-- Outcome of one `Bindings.execute(*commands)` call: the updated
`Bindings` state, the ghost list of handler invocations performed
(handler id and the positional arguments passed), whether the invoked
handler called `Console.stop()`, and the returned value or raised
exception. -/
structure ExecResult where
  state : Bindings
  calls : List (Nat × List String)
  stops : Bool
  result : Except PyError PyVal

/-- `Bindings.execute(*commands)`:
returns `None` immediately when called with no arguments; otherwise
sets `self._args` to the tail, looks up
`self._commands.get(command, self._default)`, raises
`CommandBindingException(f'{command}: command not recognized')` when that
value is not callable, and otherwise invokes it with `*self._args`. -/
def Bindings.execute (st : Bindings) (cmds : List String) : ExecResult :=
  match cmds with
  | [] => ⟨st, [], false, .ok .noneV⟩
  | command :: rest =>
    let st1 := { st with args := rest }
    let handler := (dictGet st1.commands command).getD st1.defaultHandler
    match handler with
    | .func f =>
      let eff := f.body rest
      ⟨st1, [(f.hid, rest)], eff.stops, eff.result⟩
    | _ =>
      ⟨st1, [], false,
        .error (.commandBinding (command ++ ": command not recognized"))⟩

/-- State of a `Console` object (src/pycliff/console.py): the running
flag, the prompt (as stored by `setPrompt`), the greeting, the owned
`Bindings` instance and the attached-objects dict (object identities
modelled as tag strings). -/
structure Console where
  running : Bool
  prompt : String
  greeting : String
  bindings : Bindings
  objects : List (String × String)

/-- `Console.setPrompt(prompt)`: stores `'\n{prompt} '`. -/
def Console.setPrompt (st : Console) (p : String) : Console :=
  { st with prompt := "\n" ++ p ++ " " }

/-- `Console.setGreeting(greeting)`. -/
def Console.setGreeting (st : Console) (g : String) : Console :=
  { st with greeting := g }

/-- `Console.__init__(prompt='>', greeting='')`. -/
def Console.init (prompt greeting : String) : Console :=
  Console.setGreeting
    (Console.setPrompt
      { running := false, prompt := "", greeting := "",
        bindings := Bindings.init, objects := [] } prompt) greeting

/-- `Console.commandList()`: delegates to `Bindings.asList`. -/
def Console.commandList (st : Console) : List String :=
  st.bindings.asList

/-- `Console.attach(key, obj)`. -/
def Console.attach (st : Console) (key obj : String) : Console :=
  { st with objects := dictInsert st.objects key obj }

/-- `Console.getObject(key, default=None)` (with the fallback made
explicit). -/
def Console.getObject (st : Console) (key dfault : String) : String :=
  (dictGet st.objects key).getD dfault

/-- Whitespace test used by the tokenizer model. -/
def isWS (ch : Char) : Bool :=
  ch == ' ' || ch == '\t' || ch == '\n' || ch == '\r'

/-- Accumulator-style whitespace splitter over a character list: `acc`
holds the characters of the current word, in reverse. -/
def splitWSAux : List Char → List Char → List String
  | [], acc => if acc.isEmpty then [] else [String.mk acc.reverse]
  | ch :: cs, acc =>
    if isWS ch then
      if acc.isEmpty then splitWSAux cs []
      else String.mk acc.reverse :: splitWSAux cs []
    else splitWSAux cs (ch :: acc)

/-- Models `shlex.split(line)` for lines that contain no quoting or
escape characters (the tokenizer itself is Python's standard shell lexer,
outside this repository): split on whitespace, dropping empty tokens. -/
def shlexSplit (line : String) : List String :=
  splitWSAux line.data []

/-- Outcome of one `Console._process_command(command)` call: the updated
console state, the lines printed (via `display`), the ghost list of
handler invocations, and the exception that propagates out of it, if
any.  `CommandBindingException` is caught here and displayed. -/
structure StepResult where
  state : Console
  out : List String
  calls : List (Nat × List String)
  err : Option PyError

/-- `Console._process_command(command)`: tokenize with `shlex.split`,
call `self._bindings.execute(*command)`, catching (only)
`CommandBindingException` and displaying its message.  A handler that
called `Console.stop()` has set the running flag to false. -/
def Console.processCommand (st : Console) (line : String) : StepResult :=
  let toks := shlexSplit line
  let r := st.bindings.execute toks
  let st' := { st with bindings := r.state,
                       running := if r.stops then false else st.running }
  match r.result with
  | .ok _ => ⟨st', [], r.calls, none⟩
  | .error (.commandBinding msg) => ⟨st', [msg], r.calls, none⟩
  | .error e => ⟨st', [], r.calls, some e⟩

/-- Outcome of a whole `Console.run()` / `Console.execute(filename)`
call: final state, printed output, ghost invocation list, the input or
script lines actually handed to `_process_command` (in order), and the
exception propagating out to the caller, if any. -/
structure RunResult where
  state : Console
  out : List String
  calls : List (Nat × List String)
  processed : List String
  err : Option PyError

/-- The `while (self._running): response = input(...); _process_command`
loop inside `Console.run()`.  The interactive input stream is modelled as
the list of lines the user would type; when the loop asks for input and
the stream is exhausted, Python's `input()` raises `EOFError` (not caught
by this code).  The running flag is tested at the top of each
iteration. -/
def Console.runLoop (st : Console) (inputs : List String) : RunResult :=
  match inputs with
  | [] =>
    if st.running then ⟨st, [], [], [], some (.other "EOFError")⟩
    else ⟨st, [], [], [], none⟩
  | l :: ls =>
    if st.running then
      let r := st.processCommand l
      match r.err with
      | some e => ⟨r.state, r.out, r.calls, [l], some e⟩
      | none =>
        let rest := r.state.runLoop ls
        ⟨rest.state, r.out ++ rest.out, r.calls ++ rest.calls,
          l :: rest.processed, rest.err⟩
    else ⟨st, [], [], [], none⟩

/-- `Console.run()`: display the greeting if set, set running to true,
loop; `KeyboardInterrupt` raised anywhere inside the loop is caught and
reported as a blank line followed by `'Exiting...'`; every other
exception propagates to the caller. -/
def Console.run (st : Console) (inputs : List String) : RunResult :=
  let gout := if st.greeting ≠ "" then [st.greeting] else []
  let r := Console.runLoop { st with running := true } inputs
  match r.err with
  | some .keyboardInterrupt =>
    ⟨r.state, gout ++ r.out ++ ["", "Exiting..."], r.calls, r.processed, none⟩
  | e => ⟨r.state, gout ++ r.out, r.calls, r.processed, e⟩

/-- The `for command in script: self._process_command(command)` loop
inside `Console.execute(filename)`: every line of the file is processed
in order, with no test of the running flag; the loop stops early only
when an exception propagates out of `_process_command`. -/
def Console.execLines (st : Console) (lines : List String) : RunResult :=
  match lines with
  | [] => ⟨st, [], [], [], none⟩
  | l :: ls =>
    let r := st.processCommand l
    match r.err with
    | some e => ⟨r.state, r.out, r.calls, [l], some e⟩
    | none =>
      let rest := r.state.execLines ls
      ⟨rest.state, r.out ++ rest.out, r.calls ++ rest.calls,
        l :: rest.processed, rest.err⟩

/-- `Console.execute(filename)`: display the greeting if set, open the
file (`none` models a file that cannot be opened) and process each of its
lines; `IOError`/`OSError` raised anywhere inside the `try` block is
caught and reported as a generic message, `KeyboardInterrupt` as
`'Terminating...'`; every other exception propagates to the caller. -/
def Console.executeFile (st : Console) (file : Option (List String)) :
    RunResult :=
  let gout := if st.greeting ≠ "" then [st.greeting] else []
  match file with
  | none =>
    ⟨st, gout ++ ["An error occurred while opening script file"], [], [], none⟩
  | some lines =>
    let r := st.execLines lines
    match r.err with
    | some .ioError =>
      ⟨r.state, gout ++ r.out ++ ["An error occurred while opening script file"],
        r.calls, r.processed, none⟩
    | some .keyboardInterrupt =>
      ⟨r.state, gout ++ r.out ++ ["Terminating..."], r.calls, r.processed, none⟩
    | e => ⟨r.state, gout ++ r.out, r.calls, r.processed, e⟩

/-- `Console.stop()`: sets the running flag to false. -/
def Console.stop (st : Console) : Console :=
  { st with running := false }

/-- One registration call on a `Bindings` object: `add` or `setDefault`. -/
inductive RegOp where
  | addOp (command : String) (handler : HVal)
  | setDefaultOp (handler : HVal)

/-- Apply one registration call. -/
def applyRegOp (st : Bindings) : RegOp → Bindings
  | .addOp c h => st.add c h
  | .setDefaultOp h => st.setDefault h

/-- Apply a sequence of registration calls to a freshly constructed
`Bindings` object. -/
def applyRegOps (ops : List RegOp) : Bindings :=
  ops.foldl applyRegOp Bindings.init

/-- True of a raised exception that `Console._process_command` would let
escape (everything except `CommandBindingException`). -/
def PyError.escapes : PyError → Bool
  | .commandBinding _ => false
  | _ => true

/-- True of a handler outcome that `Console._process_command` would let
escape. -/
def resultEscapes : Except PyError PyVal → Bool
  | .ok _ => false
  | .error e => e.escapes

/-- A stored handler value whose invocations never let an exception
escape `Console._process_command`: non-callables are never invoked, and
a callable must, on every argument list, either return normally or raise
`CommandBindingException`. -/
def HVal.tame : HVal → Prop
  | .func f => ∀ args, resultEscapes (f.body args).result = false
  | _ => True

/-- A `Bindings` state all of whose stored handler values (registered
and default) are tame. -/
def Bindings.Tame (st : Bindings) : Prop :=
  (∀ p ∈ st.commands, HVal.tame p.2) ∧ HVal.tame st.defaultHandler

deriving instance DecidableEq for Except

section HelperLemmas

theorem dictGet_mem {β : Type} (m : List (String × β)) (k : String) (v : β)
    (h : dictGet m k = some v) : (k, v) ∈ m := by
  induction m with
  | nil => simp [dictGet] at h
  | cons p rest ih =>
    obtain ⟨k', v'⟩ := p
    by_cases hk : k' = k
    · subst hk
      simp [dictGet] at h
      simp [h]
    · simp [dictGet, hk] at h
      exact List.mem_cons_of_mem _ (ih h)

theorem dictGet_dictInsert_self {β : Type} (m : List (String × β))
    (k : String) (v : β) : dictGet (dictInsert m k v) k = some v := by
  induction m with
  | nil => simp [dictInsert, dictGet]
  | cons p rest ih =>
    obtain ⟨k', v'⟩ := p
    by_cases hk : k' = k <;> simp [dictInsert, dictGet, hk, ih]

theorem mem_keys_dictInsert {β : Type} (m : List (String × β))
    (k a : String) (v : β) :
    a ∈ (dictInsert m k v).map Prod.fst ↔ a ∈ m.map Prod.fst ∨ a = k := by
  induction m with
  | nil => simp [dictInsert]
  | cons p rest ih =>
    obtain ⟨k', v'⟩ := p
    by_cases hk : k' = k
    · subst hk
      simp [dictInsert]
      tauto
    · simp [dictInsert, hk, ih]
      tauto

theorem keys_dictInsert_nodup {β : Type} (m : List (String × β))
    (k : String) (v : β) (hm : (m.map Prod.fst).Nodup) :
    ((dictInsert m k v).map Prod.fst).Nodup := by
  induction m with
  | nil => simp [dictInsert]
  | cons p rest ih =>
    obtain ⟨k', v'⟩ := p
    rw [List.map_cons, List.nodup_cons] at hm
    by_cases hk : k' = k
    · subst hk
      simpa [dictInsert] using hm
    · have hstep : dictInsert ((k', v') :: rest) k v =
          (k', v') :: dictInsert rest k v := by
        simp [dictInsert, hk]
      rw [hstep, List.map_cons, List.nodup_cons]
      refine ⟨?_, ih hm.2⟩
      rw [mem_keys_dictInsert]
      rintro (h | h)
      · exact hm.1 h
      · exact hk h

/-- `Bindings.execute` never changes the command table or the default
handler: only `_args` is assigned. -/
theorem execute_table_unchanged (st : Bindings) (cmds : List String) :
    (st.execute cmds).state.commands = st.commands ∧
    (st.execute cmds).state.defaultHandler = st.defaultHandler := by
  match cmds with
  | [] => exact ⟨rfl, rfl⟩
  | c :: rest =>
    unfold Bindings.execute
    cases hv : (dictGet st.commands c).getD st.defaultHandler <;> simp [hv]

theorem tame_of_eq_fields (st st' : Bindings) (hc : st'.commands = st.commands)
    (hd : st'.defaultHandler = st.defaultHandler) (h : st.Tame) : st'.Tame := by
  unfold Bindings.Tame at *
  rw [hc, hd]
  exact h

end HelperLemmas

section Fixtures

/-- A handler that returns `5` and has no further effect. -/
def retF : PyFunc :=
  ⟨3, fun _ => ⟨false, .ok (.natV 5)⟩⟩

/-- A handler that returns `None` and has no further effect (the example
application's `greet` handler, observationally). -/
def greetF : PyFunc :=
  ⟨1, fun _ => ⟨false, .ok .noneV⟩⟩

/-- A handler that calls `Console.stop()` and returns `None` (the example
application's `q` handler, observationally). -/
def stopF : PyFunc :=
  ⟨2, fun _ => ⟨true, .ok .noneV⟩⟩

/-- A handler that raises `CommandBindingException('boom')`. -/
def cbeF : PyFunc :=
  ⟨9, fun _ => ⟨false, .error (.commandBinding "boom")⟩⟩

/-- A handler that raises `ValueError`. -/
def valErrF : PyFunc :=
  ⟨4, fun _ => ⟨false, .error (.other "ValueError")⟩⟩

/-- A `Bindings` state whose last executed command had arguments
`["a", "b"]`. -/
def argsAB : Bindings :=
  { Bindings.init with args := ["a", "b"] }

end Fixtures

/-- Claim C1: for every command string `x` and argument list, if `x` is
not a key of the registered commands mapping and no default handler is
set, `Bindings.execute(x, args...)` raises `CommandBindingException`
whose message is exactly `x ++ ": command not recognized"`, and no
handler is invoked. -/
theorem execute_unregistered_no_default_raises (st : Bindings) (x : String)
    (args : List String) (hx : dictGet st.commands x = none)
    (hd : st.defaultHandler = .pyNone) :
    (st.execute (x :: args)).result =
      .error (.commandBinding (x ++ ": command not recognized")) ∧
    (st.execute (x :: args)).calls = [] := by
  unfold Bindings.execute
  simp [hx, hd]

/-- Witness for C1 at the concrete input `execute("x")` on a fresh
`Bindings` object. -/
theorem execute_unregistered_no_default_raises_witness :
    (Bindings.init.execute ["x"]).result =
      .error (.commandBinding "x: command not recognized") ∧
    (Bindings.init.execute ["x"]).calls = [] :=
  execute_unregistered_no_default_raises Bindings.init "x" [] rfl rfl

/-- Claim C5: for every non-empty variadic input, `Bindings.execute` sets
`_args` to the elements after the first one whatever the outcome of the
handler lookup, so `_args` (and hence `argc`) hold the new argument list
afterwards — in particular the overwrite is not rolled back when execute
raises `CommandBindingException`. -/
theorem execute_overwrites_args (st : Bindings) (c : String)
    (args : List String) :
    (st.execute (c :: args)).state.args = args ∧
    (st.execute (c :: args)).state.argc = args.length := by
  unfold Bindings.execute Bindings.argc
  cases hv : (dictGet st.commands c).getD st.defaultHandler <;> simp [hv]

/-- Claim C6: for every command string `x` that is not registered but
with a (callable) default handler set, `Bindings.execute(x, args...)`
invokes the default handler with exactly the remaining arguments as
positional arguments and returns its result. -/
theorem execute_default_handler_invoked (st : Bindings) (x : String)
    (args : List String) (f : PyFunc)
    (hx : dictGet st.commands x = none) (hd : st.defaultHandler = .func f) :
    (st.execute (x :: args)).calls = [(f.hid, args)] ∧
    (st.execute (x :: args)).result = (f.body args).result := by
  unfold Bindings.execute
  simp [hx, hd]

/-- Witness for C6 at the concrete input `execute("x")` (zero further
arguments) with `retF` as the default handler: `retF` is invoked with
zero arguments and its value is returned. -/
theorem execute_default_handler_invoked_witness :
    ((Bindings.init.setDefault (.func retF)).execute ["x"]).calls =
      [(3, [])] ∧
    ((Bindings.init.setDefault (.func retF)).execute ["x"]).result =
      .ok (.natV 5) :=
  execute_default_handler_invoked (Bindings.init.setDefault (.func retF))
    "x" [] retF rfl rfl

/-- Claim C8: `Bindings.execute()` called with zero variadic arguments is
a no-op: no handler is invoked, no exception is raised (the call returns
`None`), and the whole state — in particular `_args` and `argc` — is
unchanged. -/
theorem execute_empty_noop (st : Bindings) :
    (st.execute []).calls = [] ∧
    (st.execute []).result = .ok .noneV ∧
    (st.execute []).state = st :=
  ⟨rfl, rfl, rfl⟩

/-- Claim C10: whenever the value produced by lookup (the registered
entry, or the default when the command is absent) is not callable,
`Bindings.execute` raises `CommandBindingException` with message
`command ++ ": command not recognized"` and invokes nothing — so a
command registered with a non-callable handler value also fails this
way even though it is present in the mapping. -/
theorem execute_noncallable_raises (st : Bindings) (c : String)
    (args : List String)
    (h : ((dictGet st.commands c).getD st.defaultHandler).callable = false) :
    (st.execute (c :: args)).result =
      .error (.commandBinding (c ++ ": command not recognized")) ∧
    (st.execute (c :: args)).calls = [] := by
  unfold Bindings.execute
  cases hv : (dictGet st.commands c).getD st.defaultHandler with
  | func f =>
    rw [hv] at h
    simp [HVal.callable] at h
  | pyNone => simp [hv]
  | obj tag => simp [hv]

/-- Witness for C10 at the concrete input: the command `"n"` is
registered, but to the non-callable object `42`; executing it raises
`CommandBindingException("n: command not recognized")`. -/
theorem execute_noncallable_raises_witness :
    ((Bindings.init.add "n" (.obj "42")).execute ["n"]).result =
      .error (.commandBinding "n: command not recognized") ∧
    ((Bindings.init.add "n" (.obj "42")).execute ["n"]).calls = [] :=
  execute_noncallable_raises (Bindings.init.add "n" (.obj "42")) "n" [] rfl

/-- Claim C3, counterexample: with `lastArgs = ["a", "b"]`,
`getArg(-1, "d")` does not return the fallback `"d"` as the claim states
for negative indices — it returns `"b"`, the last argument, by Python's
negative-indexing rule. -/
theorem getArg_negative_index_counterexample :
    argsAB.getArg (-1) "d" = .ok "b" ∧ argsAB.getArg (-1) "d" ≠ .ok "d" := by
  constructor
  · rfl
  · decide

/-- Claim C3 amended: `getArg(index, default)` returns `lastArgs[index]`
when `0 <= index < argc` and returns `default` when `index >= argc`; but
for a negative `index` the code only tests `index >= argc`, so Python's
negative indexing applies: when `-argc <= index < 0` it returns
`lastArgs[argc + index]`, and when `index < -argc` it raises
`IndexError`. -/
theorem getArg_spec_amended (st : Bindings) (i : Int) (d : String) :
    ((st.argc : Int) ≤ i → st.getArg i d = .ok d) ∧
    (∀ v, 0 ≤ i → st.args.get? i.toNat = some v → st.getArg i d = .ok v) ∧
    (∀ v, -(st.argc : Int) ≤ i → i < 0 →
      st.args.get? ((st.argc : Int) + i).toNat = some v →
      st.getArg i d = .ok v) ∧
    (i < -(st.argc : Int) → st.getArg i d = .error (.other "IndexError")) := by
  unfold Bindings.getArg Bindings.argc listGetItem
  refine ⟨?_, ?_, ?_, ?_⟩
  · intro hge
    rw [if_pos hge]
  · intro v h0 hv
    have hlt : i.toNat < st.args.length := (List.get?_eq_some.mp hv).1
    have hlti : i < (st.args.length : Int) := by omega
    rw [if_neg (by omega)]
    rw [dif_pos ⟨h0, hlti⟩]
    have := (List.get?_eq_some.mp hv).2
    simpa using this
  · intro v hle hneg hv
    have hlt : ((st.args.length : Int) + i).toNat < st.args.length :=
      (List.get?_eq_some.mp hv).1
    rw [if_neg (by omega)]
    rw [dif_neg (by omega)]
    rw [dif_pos ⟨hle, hneg⟩]
    have := (List.get?_eq_some.mp hv).2
    simpa using this
  · intro hlt
    rw [if_neg (by omega)]
    rw [dif_neg (by omega)]
    rw [dif_neg (by omega)]

/-- Witness for the amended C3 at concrete inputs: with
`lastArgs = ["a", "b"]`, `getArg(0, "d")` returns `"a"`. -/
theorem getArg_spec_amended_witness :
    argsAB.getArg 0 "d" = .ok "a" :=
  (getArg_spec_amended argsAB 0 "d").2.1 "a" (by decide) rfl

/-- The command table built by any sequence of registration calls has
duplicate-free keys (Python dict keys are unique). -/
theorem foldl_reg_keys_nodup (ops : List RegOp) (st : Bindings)
    (h : (st.commands.map Prod.fst).Nodup) :
    ((ops.foldl applyRegOp st).commands.map Prod.fst).Nodup := by
  induction ops generalizing st with
  | nil => exact h
  | cons op rest ih =>
    apply ih
    cases op with
    | addOp c hv => exact keys_dictInsert_nodup _ _ _ h
    | setDefaultOp hv => exact h

/-- Claim C7: for every sequence of `add`/`setDefault` registrations,
`asList()` returns the registered command names sorted lexicographically
ascending with no duplicates; and each name reflects only the most
recently added handler: after `add(c, h1)` then `add(c, .func f2)`,
executing `c` invokes `f2` only, and `c` appears exactly once in
`asList()`. -/
theorem asList_sorted_latest_handler (ops : List RegOp) (c : String)
    (h1 : HVal) (f2 : PyFunc) (args : List String) :
    ((applyRegOps ops).asList.Sorted (· ≤ ·) ∧
      (applyRegOps ops).asList.Nodup) ∧
    ((((applyRegOps ops).add c h1).add c (.func f2)).execute
        (c :: args)).calls = [(f2.hid, args)] ∧
    (((applyRegOps ops).add c h1).add c (.func f2)).asList.count c = 1 := by
  have hnodup : ∀ st : Bindings, (st.commands.map Prod.fst).Nodup →
      st.asList.Nodup := by
    intro st hst
    exact (List.perm_insertionSort (· ≤ ·) (st.commands.map Prod.fst)).nodup_iff.mpr hst
  have hbase : ((applyRegOps ops).commands.map Prod.fst).Nodup :=
    foldl_reg_keys_nodup ops Bindings.init (by simp [Bindings.init])
  refine ⟨⟨List.sorted_insertionSort _ _, hnodup _ hbase⟩, ?_, ?_⟩
  · unfold Bindings.execute
    have hlook : dictGet ((((applyRegOps ops).add c h1).add c
        (.func f2)).commands) c = some (.func f2) := by
      unfold Bindings.add
      exact dictGet_dictInsert_self _ c _
    simp [hlook]
  · have hmem : c ∈ ((((applyRegOps ops).add c h1).add c
        (.func f2)).commands).map Prod.fst := by
      unfold Bindings.add
      rw [mem_keys_dictInsert]
      exact Or.inr rfl
    have hkeys : ((((applyRegOps ops).add c h1).add c
        (.func f2)).commands.map Prod.fst).Nodup := by
      unfold Bindings.add
      exact keys_dictInsert_nodup _ _ _ (keys_dictInsert_nodup _ _ _ hbase)
    unfold Bindings.asList
    have hperm := List.perm_insertionSort (· ≤ ·)
      (((((applyRegOps ops).add c h1).add c (.func f2)).commands).map Prod.fst)
    rw [hperm.count_eq]
    exact List.count_eq_one_of_mem hkeys hmem

section ConsoleLemmas

/-- Under a tame `Bindings` state, no `Bindings.execute` outcome escapes
`Console._process_command`. -/
theorem execute_tame_no_escape (st : Bindings) (cmds : List String)
    (h : st.Tame) : resultEscapes (st.execute cmds).result = false := by
  match cmds with
  | [] => rfl
  | c :: rest =>
    unfold Bindings.execute
    cases hget : dictGet st.commands c with
    | none =>
      cases hd : st.defaultHandler with
      | func f =>
        have htame := h.2
        rw [hd] at htame
        simpa [hget, hd] using htame rest
      | pyNone => simp [hget, hd, resultEscapes, PyError.escapes]
      | obj tag => simp [hget, hd, resultEscapes, PyError.escapes]
    | some v =>
      have hvt : HVal.tame v := h.1 (c, v) (dictGet_mem _ _ _ hget)
      cases v with
      | func f => simpa [hget] using hvt rest
      | pyNone => simp [hget, resultEscapes, PyError.escapes]
      | obj tag => simp [hget, resultEscapes, PyError.escapes]

/-- Under a tame `Bindings` state, `Console._process_command` lets no
exception propagate. -/
theorem processCommand_err_none (st : Console) (l : String)
    (h : st.bindings.Tame) : (st.processCommand l).err = none := by
  unfold Console.processCommand
  have hesc := execute_tame_no_escape st.bindings (shlexSplit l) h
  cases hr : (st.bindings.execute (shlexSplit l)).result with
  | ok v => simp [hr]
  | error e =>
    rw [hr] at hesc
    cases e with
    | commandBinding msg => simp [hr]
    | keyboardInterrupt => simp [resultEscapes, PyError.escapes] at hesc
    | ioError => simp [resultEscapes, PyError.escapes] at hesc
    | other tag => simp [resultEscapes, PyError.escapes] at hesc

/-- `Console._process_command` leaves the bindings in exactly the state
`Bindings.execute` left them, on every outcome. -/
theorem processCommand_state_bindings (st : Console) (l : String) :
    (st.processCommand l).state.bindings =
      (st.bindings.execute (shlexSplit l)).state := by
  unfold Console.processCommand
  cases hr : (st.bindings.execute (shlexSplit l)).result with
  | ok v => simp [hr]
  | error e => cases e <;> simp [hr]

/-- Processing a line preserves tameness (the command table and default
handler are not modified by dispatch). -/
theorem processCommand_preserves_tame (st : Console) (l : String)
    (h : st.bindings.Tame) : (st.processCommand l).state.bindings.Tame := by
  rw [processCommand_state_bindings]
  exact tame_of_eq_fields _ _
    (execute_table_unchanged st.bindings (shlexSplit l)).1
    (execute_table_unchanged st.bindings (shlexSplit l)).2 h

/-- Under a tame `Bindings` state, the script loop of
`Console.execute(filename)` hands every line of the file to
`_process_command`, in file order — whatever the running flag does. -/
theorem execLines_processes_all (lines : List String) (st : Console)
    (h : st.bindings.Tame) : (st.execLines lines).processed = lines := by
  induction lines generalizing st with
  | nil => rfl
  | cons l ls ih =>
    have he := processCommand_err_none st l h
    have hpres := processCommand_preserves_tame st l h
    simp [Console.execLines, he, ih _ hpres]

/-- A `Console.run()` loop whose running flag is already false reads no
input and processes nothing. -/
theorem runLoop_not_running (st : Console) (inputs : List String)
    (h : st.running = false) :
    st.runLoop inputs = ⟨st, [], [], [], none⟩ := by
  cases inputs <;> simp [Console.runLoop, h]

end ConsoleLemmas

/-- Claim C2: `Console.execute(filename)` processes every line of the
script file in file order, with no check of the running flag between
lines: even when a handler invoked for an earlier line calls `stop()`,
all remaining lines are still processed.  (The tameness hypothesis rules
out a handler crashing the session with a propagating exception, the
behaviour treated by C4; nothing restricts what handlers do to the
running flag.) -/
theorem executeFile_processes_all_lines (st : Console) (lines : List String)
    (h : st.bindings.Tame) :
    (st.executeFile (some lines)).processed = lines := by
  have hall := execLines_processes_all lines st h
  unfold Console.executeFile
  cases he : (st.execLines lines).err with
  | none => simpa [he] using hall
  | some e => cases e <;> simpa [he] using hall

/-- The example application's console, observationally: `greet` bound to
a plain returning handler and `q` bound to a handler that calls
`stop()`. -/
def scriptCon : Console :=
  { Console.init ">" "" with
    bindings := (Bindings.init.add "greet" (.func greetF)).add "q"
      (.func stopF) }

/-- Witness for C2 at the spec's concrete scenario: a script file with
lines `"greet\n"` and `"q\n"` is processed in full and in order, even
though `"q"`'s handler calls `stop()`. -/
theorem executeFile_processes_all_lines_witness :
    (scriptCon.executeFile (some ["greet\n", "q\n"])).processed =
      ["greet\n", "q\n"] :=
  executeFile_processes_all_lines scriptCon ["greet\n", "q\n"] (by
    constructor
    · intro p hp
      have hm : p = ("greet", HVal.func greetF) ∨
          p = ("q", HVal.func stopF) := by
        simpa [scriptCon, Console.init, Console.setGreeting,
          Console.setPrompt, Bindings.add, Bindings.init, dictInsert] using hp
      rcases hm with hm | hm <;> subst hm <;> exact fun args => rfl
    · exact trivial)

/-- Claim C9: in `Console.run()`, the running flag is checked at the top
of each loop iteration, so when the handler dispatched for an input line
calls `stop()` (and returns normally), the loop terminates after
processing that one line, invoking that handler once and reading no
further input. -/
theorem run_stops_after_stop_handler (st : Console) (line c : String)
    (rest : List String) (f : PyFunc) (v : PyVal)
    (htok : shlexSplit line = [c])
    (hlook : dictGet st.bindings.commands c = some (.func f))
    (hstop : (f.body []).stops = true)
    (hres : (f.body []).result = .ok v) :
    (st.run (line :: rest)).processed = [line] ∧
    (st.run (line :: rest)).calls = [(f.hid, [])] := by
  have hexec : ({ st with running := true } : Console).bindings.execute [c] =
      ⟨{ st.bindings with args := [] }, [(f.hid, [])], true, .ok v⟩ := by
    unfold Bindings.execute
    simp [hlook, hstop, hres]
  have hpc : ({ st with running := true } : Console).processCommand line =
      ⟨{ st with
          running := false,
          bindings := { st.bindings with args := [] } },
        [], [(f.hid, [])], none⟩ := by
    unfold Console.processCommand
    rw [htok]
    simp [hexec]
  have hnr := runLoop_not_running
    { st with
      running := false,
      bindings := { st.bindings with args := [] } } rest rfl
  unfold Console.run
  simp [Console.runLoop, hpc, hnr]

/-- The interactive console of the spec's C9 scenario: `q` bound to a
handler that calls `stop()`. -/
def qCon : Console :=
  { Console.init ">" "" with
    bindings := Bindings.init.add "q" (.func stopF) }

/-- Witness for C9 at the spec's concrete scenario: `run()` fed the
input lines `"q"` then `"zzz"` processes only `"q"` (one handler
invocation) and never reads `"zzz"`. -/
theorem run_stops_after_stop_handler_witness :
    (qCon.run ["q", "zzz"]).processed = ["q"] ∧
    (qCon.run ["q", "zzz"]).calls = [(2, [])] :=
  run_stops_after_stop_handler qCon "q" "q" ["zzz"] stopF .noneV rfl rfl
    rfl rfl

/-- The console of the C4 counterexample: `x` bound to a handler that
raises `CommandBindingException("boom")` when invoked. -/
def cbeCon : Console :=
  { Console.init ">" "" with
    bindings := Bindings.init.add "x" (.func cbeF) }

/-- Claim C4, counterexample: the handler registered for `"x"` raises an
error (`CommandBindingException("boom")`) when invoked, and contrary to
the claim this handler-raised error does not propagate out of
`Console.execute(filename)`: the handler is invoked (ghost call list),
nothing propagates to the caller, and the message is displayed —
`except CommandBindingException` in `_process_command` catches by type,
not by origin. -/
theorem handler_error_caught_counterexample :
    (cbeCon.executeFile (some ["x"])).calls = [(9, [])] ∧
    (cbeCon.executeFile (some ["x"])).err = none ∧
    (cbeCon.executeFile (some ["x"])).out = ["boom"] :=
  ⟨rfl, rfl, rfl⟩

/-- Claim C4 amended: an error a registered handler raises propagates
out of `Console.run()` and `Console.execute(filename)` to the caller
provided it is not of one of the exception types this code catches —
`CommandBindingException` (caught and displayed by `_process_command`
whatever raised it), `KeyboardInterrupt` (caught by `run`/`execute`),
and, inside `execute`, `IOError`/`OSError` (caught by the script-file
error handler). -/
theorem handler_error_propagates (st : Console) (line c : String)
    (args : List String) (f : PyFunc) (tag : String)
    (htok : shlexSplit line = c :: args)
    (hlook : dictGet st.bindings.commands c = some (.func f))
    (hres : (f.body args).result = .error (.other tag)) :
    (st.run [line]).err = some (.other tag) ∧
    (st.executeFile (some [line])).err = some (.other tag) := by
  have hpc : ∀ stc : Console, stc.bindings = st.bindings →
      (stc.processCommand line).err = some (.other tag) := by
    intro stc hb
    unfold Console.processCommand
    rw [htok, hb]
    unfold Bindings.execute
    simp [hlook, hres]
  have h1 := hpc { st with running := true } rfl
  have h2 := hpc st rfl
  constructor
  · unfold Console.run
    simp [Console.runLoop, h1]
  · unfold Console.executeFile
    simp [Console.execLines, h2]

/-- The console of the C4 witness: `v` bound to a handler that raises
`ValueError` when invoked. -/
def valErrCon : Console :=
  { Console.init ">" "" with
    bindings := Bindings.init.add "v" (.func valErrF) }

/-- Witness for the amended C4 at a concrete input: a handler-raised
`ValueError` propagates out of both `run()` and `execute(filename)`. -/
theorem handler_error_propagates_witness :
    (valErrCon.run ["v"]).err = some (.other "ValueError") ∧
    (valErrCon.executeFile (some ["v"])).err = some (.other "ValueError") :=
  handler_error_propagates valErrCon "v" "v" [] valErrF "ValueError"
    rfl rfl rfl

end PyCliff
